import Mathlib

/-
Verification development for the x32-audio brain core (src/brain_core.py).

The numeric domain of the Python code (IEEE floats) is modelled with exact
rationals (ℚ); every constant appearing in the code is exactly representable,
and all comparisons and arithmetic on the values the program actually computes
are exact, so the rational model is faithful on the claims considered here.
Strings, lists and dictionaries are modelled with Lean strings and association
lists (Python dicts iterate in insertion order, which an association list
preserves).
-/

namespace X32

/-- Embeds `fader_to_db` (brain_core.py lines 24-32): piecewise linear map
from a normalized fader position to decibels.  Note the strict `>` on the
0.0625 threshold, exactly as in the source. -/
def fader_to_db (fader_val : ℚ) : ℚ :=
  if fader_val ≥ 0.5 then fader_val * 40.0 - 30.0
  else if fader_val ≥ 0.25 then fader_val * 80.0 - 50.0
  else if fader_val > 0.0625 then fader_val * 160.0 - 70.0
  else -90.0

/-- Embeds `db_to_fader` (brain_core.py lines 34-42): piecewise linear map
from decibels to a normalized fader position. -/
def db_to_fader (db_val : ℚ) : ℚ :=
  if db_val ≥ -10.0 then (db_val + 30.0) / 40.0
  else if db_val ≥ -30.0 then (db_val + 50.0) / 80.0
  else if db_val ≥ -60.0 then (db_val + 70.0) / 160.0
  else 0.0

/-- Embeds the mutable state of a `ChannelStrip` (brain_core.py lines 44-56).
The `id` field keeps the configuration key string, as in the source. -/
structure ChannelStrip where
  id : String
  name : String
  group : String
  priority : String
  current_dbfs : ℚ
  current_fader_level : ℚ
  target_fader_level : ℚ
  is_overridden : Bool
  override_end_time : ℚ
deriving Repr, DecidableEq

/-- Per-channel configuration entry (`config_data` dict with optional keys). -/
structure ChannelConfig where
  name : Option String
  group : Option String
  priority : Option String
deriving Repr, DecidableEq

/-- Default display-name stem used by `ChannelStrip.__init__`. -/
def chLabel : String := "Ch "

/-- Default group used by `ChannelStrip.__init__` when the config omits it. -/
def defaultGroup : String := "ignore"

/-- Default priority used by `ChannelStrip.__init__` when the config omits it. -/
def defaultPriority : String := "none"

/-- Embeds `ChannelStrip.__init__` (brain_core.py lines 45-56), including the
defaults taken with `config_data.get`. -/
def ChannelStrip.init (channel_id : String) (cfg : ChannelConfig) : ChannelStrip :=
  { id := channel_id
    name := cfg.name.getD (chLabel ++ channel_id)
    group := cfg.group.getD defaultGroup
    priority := cfg.priority.getD defaultPriority
    current_dbfs := -90.0
    current_fader_level := 0.0
    target_fader_level := 0.75
    is_overridden := false
    override_end_time := 0 }

/-- The module-level constant `TARGET_BUS_IDX` (brain_core.py line 16): the
default target-bus list, reassigned from config by `load_config`; the mixing
loop itself never reads it. -/
def TARGET_BUS_IDX : List Nat := [11, 12]

/-- Looks a channel up by its id string in the channel table
(`self.channels[ch_id]` on a dict modelled as an association list). -/
def lookupCh (chs : List (String × ChannelStrip)) (k : String) : Option ChannelStrip :=
  (chs.find? (fun p => p.1 == k)).map (fun p => p.2)

/-- Key-membership test, `ch_id in self.channels`. -/
def containsKey (chs : List (String × ChannelStrip)) (k : String) : Bool :=
  chs.any (fun p => p.1 == k)

/-- The assignment `self.channels[ch_id].current_dbfs = db_val`. -/
def setDbfs (chs : List (String × ChannelStrip)) (k : String) (db : ℚ) :
    List (String × ChannelStrip) :=
  chs.map (fun p => if p.1 == k then (p.1, { p.2 with current_dbfs := db }) else p)

/-- The speech-gate test of brain_core.py line 117:
`self.channels[ch_id].group == "speech" and db_val > -35.0`, read from the
table after the `current_dbfs` update. -/
def speechHit (chs : List (String × ChannelStrip)) (k : String) (db : ℚ) : Bool :=
  match lookupCh chs k with
  | some ch => ch.group == "speech" && decide (db > -35.0)
  | none => false

/-- One iteration of the `for ch_id, db_val in levels.items()` loop of
`process_telemetry` (brain_core.py lines 112-118): unknown ids leave the
accumulator untouched; known ids update `current_dbfs` and fold the running
`max_speech_db`. -/
def telemetryStep (acc : List (String × ChannelStrip) × ℚ) (pair : String × ℚ) :
    List (String × ChannelStrip) × ℚ :=
  if containsKey acc.1 pair.1 then
    let chs2 := setDbfs acc.1 pair.1 pair.2
    (chs2, if speechHit chs2 pair.1 pair.2 then max acc.2 pair.2 else acc.2)
  else acc

/-- Embeds `BrainCore.process_telemetry` (brain_core.py lines 108-121) up to the
point where `self.speech_active` is set: returns the updated channel table and
the ducking gate `max_speech_db > -35.0`, with `max_speech_db` started at the
floor value `-90.0`. -/
def process_telemetry (chs : List (String × ChannelStrip)) (levels : List (String × ℚ)) :
    List (String × ChannelStrip) × Bool :=
  let r := levels.foldl telemetryStep (chs, -90.0)
  (r.1, decide (r.2 > -35.0))

/-- A command published on `x32/commands`: `{"address": ..., "args": [...]}`. -/
structure CommandMessage where
  address : String
  args : List ℚ
deriving Repr, DecidableEq

/-- `duck_amount = -4.0 if self.speech_active else 0.0` (brain_core.py line 128). -/
def duckAmount (speech_active : Bool) : ℚ :=
  if speech_active then -4.0 else 0.0

/-- The padding character of Python `f"{n:02d}"`. -/
def zeroPad : String := "0"

/-- Python `f"{n:02d}"`: zero-pad to two digits (wider numbers unchanged). -/
def twoDigit (n : Nat) : String :=
  if n < 10 then zeroPad ++ toString n else toString n

/-- Decimal value of one digit character. -/
def charDigit (c : Char) : Nat := c.toNat - 48

/-- Python `int(ch.id)` on the id strings the configuration uses (decimal
digit strings, on which this fold agrees with Python's `int`); non-numeric
ids, on which Python would raise, are outside every claim. -/
def parseChanId (s : String) : Nat :=
  s.data.foldl (fun acc c => acc * 10 + charDigit c) 0

/-- Address stem `/ch/` of the OSC command (brain_core.py line 191). -/
def addrHead : String := "/ch/"

/-- Address tail `/mix/11/level` of the OSC command: the bus index is the
literal 11 in the source (brain_core.py line 191). -/
def addrTail : String := "/mix/11/level"

/-- Construction of one OSC command (brain_core.py lines 188-192): address
`/ch/{id:02d}/mix/11/level` and a single converted fader argument. -/
def mkCommand (ch : ChannelStrip) (target_db : ℚ) : CommandMessage :=
  { address := addrHead ++ twoDigit (parseChanId ch.id) ++ addrTail
    args := [db_to_fader target_db] }

/-- Log line `f"Override ended for {ch.name}"` (brain_core.py line 139). -/
def overrideEndedMsg : String := "Override ended for "

/-- The group-policy branch of `run_mixing_logic` (brain_core.py lines 143-173):
`some target_db` when the channel gets a command this cycle, `none` when the
loop `continue`s (vocal deadband, or a group that is neither drums, band,
vocals nor speech). -/
def applyPolicy (speech_active : Bool) (ch : ChannelStrip) : Option ℚ :=
  if ch.group == "drums" || ch.group == "band" then
    some (0.0 + duckAmount speech_active)
  else if ch.group == "vocals" then
    let error := -18.0 - ch.current_dbfs
    if |error| < 2.0 then none
    else some 0.0
  else if ch.group == "speech" then
    some 0.0
  else none

/-- One iteration of the channel loop of `run_mixing_logic` (brain_core.py
lines 135-192) for a single channel: override handling (skip while unexpired,
clear-and-log then fall through once expired), then the group policy and
command construction.  Returns the channel's new state, the commands it
appended (empty or a singleton), and the log lines emitted. -/
def channelStep (speech_active : Bool) (now : ℚ) (ch : ChannelStrip) :
    ChannelStrip × List CommandMessage × List String :=
  if ch.is_overridden then
    if now > ch.override_end_time then
      match applyPolicy speech_active ch with
      | none => ({ ch with is_overridden := false }, [], [overrideEndedMsg ++ ch.name])
      | some t =>
          ({ ch with is_overridden := false }, [mkCommand ch t],
           [overrideEndedMsg ++ ch.name])
    else (ch, [], [])
  else
    match applyPolicy speech_active ch with
    | none => (ch, [], [])
    | some t => (ch, [mkCommand ch t], [])

/-- Embeds `BrainCore.run_mixing_logic` (brain_core.py lines 126-197) over the
whole channel table, in iteration order: updated table, batched command list,
and log lines. -/
def run_mixing_logic (speech_active : Bool) (now : ℚ) :
    List (String × ChannelStrip) →
      List (String × ChannelStrip) × List CommandMessage × List String
  | [] => ([], [], [])
  | p :: rest =>
    let r := channelStep speech_active now p.2
    let rr := run_mixing_logic speech_active now rest
    ((p.1, r.1) :: rr.1, r.2.1 ++ rr.2.1, r.2.2 ++ rr.2.2)

/-- One full decision cycle, as triggered by a telemetry message
(brain_core.py lines 108-124 followed by 126-197): telemetry update and gate
computation, then the mixing pass with the wall-clock time `now`. -/
def decisionCycle (now : ℚ) (chs : List (String × ChannelStrip))
    (levels : List (String × ℚ)) :
    List (String × ChannelStrip) × Bool × List CommandMessage × List String :=
  let p := process_telemetry chs levels
  let m := run_mixing_logic p.2 now p.1
  (m.1, p.2, m.2.1, m.2.2)

/-- Last value associated to a key in a telemetry list (a Python dict has each
key once, so this is simply the value at that key; for the list model it picks
the write that survives the fold). -/
def lastDb : List (String × ℚ) → String → Option ℚ
  | [], _ => none
  | p :: rest, k =>
    match lastDb rest k with
    | some d => some d
    | none => if p.1 == k then some p.2 else none

/-- The spec-side gate predicate used to characterise `process_telemetry`:
some reported channel is configured, belongs to the `speech` group, and its
reading is strictly above -35.0 dB. -/
def gateSpec (chs : List (String × ChannelStrip)) (levels : List (String × ℚ)) : Bool :=
  levels.any (fun p =>
    match lookupCh chs p.1 with
    | some ch => ch.group == "speech" && decide (p.2 > -35.0)
    | none => false)

/-- Whether a channel produces a command in the current pass: not locked by an
unexpired override, and its group policy yields a target (no vocal deadband,
no ignore-like group). -/
def emitsNow (speech_active : Bool) (now : ℚ) (ch : ChannelStrip) : Bool :=
  (!ch.is_overridden || decide (now > ch.override_end_time)) &&
    (applyPolicy speech_active ch).isSome

/-- The target the group policy assigns to an emitting channel. -/
def targetNow (speech_active : Bool) (ch : ChannelStrip) : ℚ :=
  (applyPolicy speech_active ch).getD 0

/-- Group name strings of the configuration, as used in brain_core.py. -/
def grpSpeech : String := "speech"

/-- Group name string for the drums policy branch. -/
def grpDrums : String := "drums"

/-- Group name string for the band policy branch. -/
def grpBand : String := "band"

/-- Group name string for the vocals policy branch. -/
def grpVocals : String := "vocals"

/-- Channel-id key used by the concrete scenarios below. -/
def chanOne : String := "1"

/-- Channel-id key used by the concrete scenarios below. -/
def chanTwo : String := "2"

/-- Channel-id key used by the concrete scenarios below. -/
def chanThree : String := "3"

/-- Concrete speech channel (config `{"group": "speech"}` under key "1"). -/
def speechCh : ChannelStrip :=
  ChannelStrip.init chanOne { name := none, group := some grpSpeech, priority := none }

/-- Concrete drums channel (config `{"group": "drums"}` under key "2"). -/
def drumCh : ChannelStrip :=
  ChannelStrip.init chanTwo { name := none, group := some grpDrums, priority := none }

/-- Concrete vocals channel under key "3", with a given current level. -/
def vocalCh (db : ℚ) : ChannelStrip :=
  { ChannelStrip.init chanThree { name := none, group := some grpVocals, priority := none } with
      current_dbfs := db }

/-- Claim C3: the spec demands that the curve round-trips at all five
breakpoints, including (0.0625, -60); the code's own comment on the third
segment documents the intent 0.0625 -> -60.  But the strict `>` on that
threshold makes `fader_to_db 0.0625 = -90`, not -60 (and far outside the
1e-9 tolerance), so both round-trips fail at that pair, while the remaining
four breakpoints agree exactly in both directions.  This theorem evaluates
the code at the failing breakpoint and at the four good ones. -/
theorem C3_fader_curve_breakpoint_eval :
    fader_to_db 0.0625 = -90.0 ∧
    ¬ fader_to_db 0.0625 = -60.0 ∧
    ¬ |fader_to_db 0.0625 - (-60.0)| < 0.000000001 ∧
    db_to_fader (-60.0) = 0.0625 ∧
    fader_to_db (db_to_fader (-60.0)) = -90.0 ∧
    ¬ fader_to_db (db_to_fader (-60.0)) = -60.0 ∧
    db_to_fader (fader_to_db 0.0625) = 0.0 ∧
    ¬ db_to_fader (fader_to_db 0.0625) = 0.0625 ∧
    fader_to_db 0.25 = -30.0 ∧ db_to_fader (-30.0) = 0.25 ∧
    fader_to_db 0.5 = -10.0 ∧ db_to_fader (-10.0) = 0.5 ∧
    fader_to_db 0.75 = 0.0 ∧ db_to_fader 0.0 = 0.75 ∧
    fader_to_db 1.0 = 10.0 ∧ db_to_fader 10.0 = 1.0 := by
  norm_num [fader_to_db, db_to_fader]

/-- Claim C10: above the -60 dB silence floor the curve pair is an exact
one-sided inverse in exact rational arithmetic, with no upper bound on db;
at and below -60 the round-trip collapses to the floor value -90.0. -/
theorem C10_roundtrip_above_floor (db : ℚ) :
    fader_to_db (db_to_fader db) = if -60.0 < db then db else -90.0 := by
  unfold fader_to_db db_to_fader
  split_ifs <;> first | rfl | linarith

/-- The fader value of the ducked target. -/
lemma db_to_fader_neg4 : db_to_fader (-4.0) = 13/20 := by
  norm_num [db_to_fader]

/-- The fader value of the unity target. -/
lemma db_to_fader_zero : db_to_fader 0.0 = 0.75 := by
  norm_num [db_to_fader]

/-- Claim C2 (amended): with the ducking gate active, a non-overridden drums
or band channel gets target_db = 0.0 + (-4.0) = -4.0, and its emitted fader
value is `db_to_fader (-4.0) = (-4+30)/40 = 0.65` (the `db >= -10` segment
applies), not 0.575 as the spec computes. -/
theorem C2_ducking_fader (now : ℚ) (ch : ChannelStrip)
    (h1 : ch.is_overridden = false) (h2 : ch.group = grpDrums ∨ ch.group = grpBand) :
    channelStep true now ch = (ch, [mkCommand ch (-4.0)], []) ∧
    (mkCommand ch (-4.0)).args = [13/20] := by
  constructor
  · unfold channelStep applyPolicy duckAmount
    rcases h2 with h | h <;>
      simp [h1, h, grpDrums, grpBand] <;> norm_num
  · simp [mkCommand, db_to_fader_neg4]

/-- Witness for C2: the concrete drums channel of the scenario. -/
theorem C2_ducking_fader_witness :
    drumCh.is_overridden = false ∧ (drumCh.group = grpDrums ∨ drumCh.group = grpBand) ∧
    (channelStep true 0 drumCh = (drumCh, [mkCommand drumCh (-4.0)], []) ∧
     (mkCommand drumCh (-4.0)).args = [13/20]) :=
  ⟨rfl, Or.inl rfl, C2_ducking_fader 0 drumCh rfl (Or.inl rfl)⟩

/-- Counterexample for C2 as stated: the ducked command's single argument is
13/20 = 0.65, and it is not 0.575 = 23/40 (the claimed value `(-4+50)/80`),
nor within the 1e-9 tolerance of it. -/
theorem C2_counterexample_fader_value :
    (channelStep true 0 drumCh).2.1 = [mkCommand drumCh (-4.0)] ∧
    (mkCommand drumCh (-4.0)).args = [13/20] ∧
    (0.575 : ℚ) = 23/40 ∧
    ¬ (13 : ℚ)/20 = 23/40 ∧
    ¬ (mkCommand drumCh (-4.0)).args = [23/40] ∧
    ¬ |(13 : ℚ)/20 - 23/40| < 0.000000001 := by
  refine ⟨?_, ?_, by norm_num, by norm_num, ?_, by norm_num [abs_lt]⟩
  · unfold channelStep applyPolicy duckAmount drumCh ChannelStrip.init
    simp [grpDrums]
    norm_num
  · simp [mkCommand, db_to_fader_neg4]
  · simp [mkCommand, db_to_fader_neg4]
    norm_num

/-- Claim C5: a non-overridden vocals channel is handled by the P-controller
stub: error = -18.0 - current_dbfs; inside the ±2 dB deadband it emits no
command and is left untouched, otherwise it emits the fixed fallback target
0.0 dB. -/
theorem C5_vocal_deadband (sa : Bool) (now : ℚ) (ch : ChannelStrip)
    (h1 : ch.is_overridden = false) (h2 : ch.group = grpVocals) :
    channelStep sa now ch =
      (ch, if |(-18.0 : ℚ) - ch.current_dbfs| < 2.0 then ([], [])
           else ([mkCommand ch 0.0], [])) := by
  unfold channelStep applyPolicy
  by_cases hd : |(-18.0 : ℚ) - ch.current_dbfs| < 2.0 <;>
    simp [h1, h2, grpVocals, hd]

/-- Witness for C5: current_dbfs = -19.5 (error 1.5, deadband, no command)
and current_dbfs = -12.0 (error -6, fallback command at 0.0 dB). -/
theorem C5_vocal_deadband_witness :
    (vocalCh (-19.5)).is_overridden = false ∧ (vocalCh (-19.5)).group = grpVocals ∧
    channelStep false 0 (vocalCh (-19.5)) = (vocalCh (-19.5), ([], [])) ∧
    channelStep false 0 (vocalCh (-12.0)) =
      (vocalCh (-12.0), ([mkCommand (vocalCh (-12.0)) 0.0], [])) := by
  refine ⟨rfl, rfl, ?_, ?_⟩
  · rw [C5_vocal_deadband false 0 (vocalCh (-19.5)) rfl rfl]
    norm_num [vocalCh, ChannelStrip.init, abs_lt]
  · rw [C5_vocal_deadband false 0 (vocalCh (-12.0)) rfl rfl]
    norm_num [vocalCh, ChannelStrip.init, abs_lt]

/-- Claim C6: the override state machine of the decision pass.  An overridden
channel with `now` not past its expiry is returned untouched with no command
and no log line; otherwise (expired override, or no override at all) the
override flag ends up cleared, the commands are exactly those of the normal
group policy on the same channel, and the expiry transition is logged exactly
when the override flag was set.  In particular the pass itself never sets the
flag, so its only transition is Overridden → Normal. -/
theorem C6_override_state_machine (sa : Bool) (now : ℚ) (ch : ChannelStrip) :
    channelStep sa now ch =
      if ch.is_overridden && !(decide (now > ch.override_end_time)) then (ch, ([], []))
      else ({ ch with is_overridden := false },
            ((channelStep sa now { ch with is_overridden := false }).2.1,
             if ch.is_overridden then [overrideEndedMsg ++ ch.name] else [])) := by
  obtain ⟨i, nm, g, pr, cd, cf, tf, ov, oe⟩ := ch
  cases ov with
  | false =>
    simp only [channelStep, Bool.false_and, if_neg Bool.false_ne_true, if_false]
    cases hap : applyPolicy sa ⟨i, nm, g, pr, cd, cf, tf, false, oe⟩ <;>
      simp [channelStep, hap]
  | true =>
    by_cases hex : now > oe
    · have hpol : applyPolicy sa ⟨i, nm, g, pr, cd, cf, tf, true, oe⟩ =
          applyPolicy sa ⟨i, nm, g, pr, cd, cf, tf, false, oe⟩ := rfl
      cases hap : applyPolicy sa ⟨i, nm, g, pr, cd, cf, tf, false, oe⟩ <;>
        simp [channelStep, hap, hpol, hex, mkCommand]
    · simp [channelStep, hex]

/-- The per-channel pass only ever touches the override flag: every other
field of the returned strip, in particular `target_fader_level`, is the
input's. -/
lemma channelStep_fst_target (sa : Bool) (now : ℚ) (ch : ChannelStrip) :
    (channelStep sa now ch).1.target_fader_level = ch.target_fader_level := by
  unfold channelStep
  split_ifs <;> cases hap : applyPolicy sa ch <;> simp [hap]

/-- Claim C7 (amended): the decision pass never assigns `target_fader_level`;
across a whole mixing pass every channel keeps its previous value of that
field (0.75 from initialization), and the converted fader value appears only
in the emitted command. -/
theorem C7_target_fader_level_never_assigned (sa : Bool) (now : ℚ)
    (chs : List (String × ChannelStrip)) :
    ((run_mixing_logic sa now chs).1).map (fun p => p.2.target_fader_level) =
      chs.map (fun p => p.2.target_fader_level) := by
  induction chs with
  | nil => rfl
  | cons p rest ih => simp [run_mixing_logic, channelStep_fst_target, ih]

/-- Counterexample for C7 as stated: the concrete drums channel receives the
policy target -4.0 under an active gate (its command carries
`db_to_fader (-4.0) = 13/20`), yet its `target_fader_level` field still holds
the initial 0.75 after the pass, not the conversion of its target. -/
theorem C7_counterexample_stale_target :
    (channelStep true 0 drumCh).2.1 = [mkCommand drumCh (-4.0)] ∧
    (mkCommand drumCh (-4.0)).args = [db_to_fader (-4.0)] ∧
    (channelStep true 0 drumCh).1.target_fader_level = 0.75 ∧
    db_to_fader (-4.0) = 13/20 ∧
    ¬ (channelStep true 0 drumCh).1.target_fader_level = db_to_fader (-4.0) := by
  refine ⟨?_, rfl, ?_, db_to_fader_neg4, ?_⟩
  · unfold channelStep applyPolicy duckAmount drumCh ChannelStrip.init
    simp [grpDrums]
    norm_num
  · rw [channelStep_fst_target]
    rfl
  · rw [channelStep_fst_target, db_to_fader_neg4]
    norm_num [drumCh, ChannelStrip.init]

/-- A channel appends exactly one command when `emitsNow` holds and none
otherwise, and the command is built by `mkCommand` from its policy target. -/
lemma channelStep_cmds (sa : Bool) (now : ℚ) (ch : ChannelStrip) :
    (channelStep sa now ch).2.1 =
      if emitsNow sa now ch then [mkCommand ch (targetNow sa ch)] else [] := by
  unfold channelStep emitsNow targetNow
  cases hov : ch.is_overridden <;>
    cases hap : applyPolicy sa ch <;>
      by_cases hex : now > ch.override_end_time <;>
        simp [hov, hap, hex]

/-- The whole mixing pass emits exactly the `mkCommand` of each channel that
passes the override and policy filters, in table order. -/
lemma run_cmds_eq (sa : Bool) (now : ℚ) (chs : List (String × ChannelStrip)) :
    (run_mixing_logic sa now chs).2.1 =
      (chs.filter (fun p => emitsNow sa now p.2)).map
        (fun p => mkCommand p.2 (targetNow sa p.2)) := by
  induction chs with
  | nil => rfl
  | cons p rest ih =>
    by_cases he : emitsNow sa now p.2 <;>
      simp [run_mixing_logic, channelStep_cmds, List.filter_cons, he, ih]

/-- Every policy target is either the (possibly ducked) music target or the
fixed 0.0 dB fallback/unity target. -/
lemma applyPolicy_target (sa : Bool) (ch : ChannelStrip) (t : ℚ)
    (h : applyPolicy sa ch = some t) : t = 0.0 + duckAmount sa ∨ t = 0.0 := by
  unfold applyPolicy at h
  split_ifs at h <;> simp_all

/-- Claim C1 (amended): each decision cycle emits exactly one command per
applicable, non-deadbanded, non-overridden channel — not one per
channel-and-target-bus pair.  The bus index in the address is the literal 11
(`addrTail`); the configured `target_bus` sequence (default
`TARGET_BUS_IDX = [11, 12]`) is never consulted by the mixing loop.  Each
command carries the single converted fader value of that channel's target. -/
theorem C1_one_command_per_channel_bus11 (sa : Bool) (now : ℚ)
    (chs : List (String × ChannelStrip)) :
    (run_mixing_logic sa now chs).2.1 =
      (chs.filter (fun p => emitsNow sa now p.2)).map
        (fun p => mkCommand p.2 (targetNow sa p.2)) ∧
    ∀ ch : ChannelStrip, ∀ t : ℚ,
      (mkCommand ch t).address = addrHead ++ twoDigit (parseChanId ch.id) ++ addrTail ∧
      (mkCommand ch t).args = [db_to_fader t] :=
  ⟨run_cmds_eq sa now chs, fun _ _ => ⟨rfl, rfl⟩⟩

/-- Counterexample for C1 as stated: with the default configured bus list
`[11, 12]`, a single applicable drums channel yields one command, not one per
channel-and-target-bus pair (which would be two), and its address uses the
hardcoded bus 11. -/
theorem C1_counterexample_target_bus_ignored :
    TARGET_BUS_IDX = [11, 12] ∧
    (run_mixing_logic false 0 [(chanTwo, drumCh)]).2.1 = [mkCommand drumCh 0.0] ∧
    (run_mixing_logic false 0 [(chanTwo, drumCh)]).2.1.length = 1 ∧
    ¬ (run_mixing_logic false 0 [(chanTwo, drumCh)]).2.1.length = TARGET_BUS_IDX.length ∧
    (mkCommand drumCh 0.0).address = addrHead ++ twoDigit 2 ++ addrTail := by
  have hrun : (run_mixing_logic false 0 [(chanTwo, drumCh)]).2.1 = [mkCommand drumCh 0.0] := by
    unfold run_mixing_logic channelStep applyPolicy duckAmount drumCh ChannelStrip.init
    simp [grpDrums]
    norm_num [run_mixing_logic, mkCommand, drumCh, ChannelStrip.init]
  refine ⟨rfl, hrun, by rw [hrun]; rfl, by rw [hrun]; simp [TARGET_BUS_IDX], rfl⟩

/-- Claim C8: every command the mixing pass can emit, over every channel
table, gate state and time, carries exactly one argument, and that argument
lies in the normalized range [0.0, 1.0] (the only reachable targets are
0.0 dB and -4.0 dB, converting to 0.75 and 0.65). -/
theorem C8_args_unit_interval (sa : Bool) (now : ℚ)
    (chs : List (String × ChannelStrip)) (cmd : CommandMessage)
    (h : cmd ∈ (run_mixing_logic sa now chs).2.1) :
    cmd.args.length = 1 ∧ ∀ a ∈ cmd.args, 0 ≤ a ∧ a ≤ 1 := by
  rw [run_cmds_eq] at h
  obtain ⟨p, hp, rfl⟩ := List.mem_map.mp h
  have hem : emitsNow sa now p.2 = true := (List.mem_filter.mp hp).2
  obtain ⟨t, ht⟩ := Option.isSome_iff_exists.mp (Bool.and_elim_right hem)
  have htt : targetNow sa p.2 = t := by simp [targetNow, ht]
  rcases applyPolicy_target sa p.2 t ht with h0 | h0 <;>
    cases sa <;>
      simp [mkCommand, htt, h0, duckAmount, db_to_fader] <;> norm_num

/-- Witness for C8: the concrete single-drums-channel cycle with the gate
inactive; its one command carries the single argument 0.75. -/
theorem C8_args_unit_interval_witness :
    (mkCommand drumCh 0.0 ∈ (run_mixing_logic false 0 [(chanTwo, drumCh)]).2.1) ∧
    ((mkCommand drumCh 0.0).args.length = 1 ∧
      ∀ a ∈ (mkCommand drumCh 0.0).args, 0 ≤ a ∧ a ≤ 1) := by
  have hm : mkCommand drumCh 0.0 ∈ (run_mixing_logic false 0 [(chanTwo, drumCh)]).2.1 := by
    have hrun : (run_mixing_logic false 0 [(chanTwo, drumCh)]).2.1 = [mkCommand drumCh 0.0] := by
      unfold run_mixing_logic channelStep applyPolicy duckAmount drumCh ChannelStrip.init
      simp [grpDrums]
      norm_num [run_mixing_logic, mkCommand, drumCh, ChannelStrip.init]
    rw [hrun]
    exact List.mem_singleton.mpr rfl
  exact ⟨hm, C8_args_unit_interval false 0 [(chanTwo, drumCh)] (mkCommand drumCh 0.0) hm⟩

/-- Head unfolding of `lookupCh`. -/
lemma lookupCh_cons (q : String × ChannelStrip) (l : List (String × ChannelStrip))
    (k : String) :
    lookupCh (q :: l) k = if q.1 == k then some q.2 else lookupCh l k := by
  by_cases h : q.1 == k <;> simp [lookupCh, List.find?_cons, h]

/-- Head unfolding of `containsKey`. -/
lemma containsKey_cons (q : String × ChannelStrip) (l : List (String × ChannelStrip))
    (k : String) :
    containsKey (q :: l) k = ((q.1 == k) || containsKey l k) := by
  simp [containsKey]

/-- `containsKey` is definability of `lookupCh`. -/
lemma containsKey_eq_isSome (chs : List (String × ChannelStrip)) (k : String) :
    containsKey chs k = (lookupCh chs k).isSome := by
  induction chs with
  | nil => rfl
  | cons q l ih =>
    by_cases h : q.1 == k <;> simp [containsKey_cons, lookupCh_cons, h, ih]

/-- Head unfolding of `setDbfs`. -/
lemma setDbfs_cons (p : String × ChannelStrip) (l : List (String × ChannelStrip))
    (k : String) (db : ℚ) :
    setDbfs (p :: l) k db =
      (if p.1 == k then (p.1, { p.2 with current_dbfs := db }) else p) :: setDbfs l k db :=
  rfl

/-- The rewritten head entry keeps its key. -/
lemma setDbfs_head_fst (p : String × ChannelStrip) (k : String) (db : ℚ) :
    (if p.1 == k then (p.1, { p.2 with current_dbfs := db }) else p).1 = p.1 := by
  split <;> rfl

/-- Writing `current_dbfs` at one key leaves the key set unchanged. -/
lemma containsKey_setDbfs (chs : List (String × ChannelStrip)) (k : String) (db : ℚ)
    (q : String) :
    containsKey (setDbfs chs k db) q = containsKey chs q := by
  induction chs with
  | nil => rfl
  | cons p l ih =>
    rw [setDbfs_cons, containsKey_cons, containsKey_cons, ih, setDbfs_head_fst]

/-- Full description of a `current_dbfs` write: the written key's entry gets
the new level, every other key reads as before. -/
lemma lookupCh_setDbfs (chs : List (String × ChannelStrip)) (k : String) (db : ℚ)
    (k' : String) :
    lookupCh (setDbfs chs k db) k' =
      if k' = k then (lookupCh chs k).map (fun ch => { ch with current_dbfs := db })
      else lookupCh chs k' := by
  induction chs with
  | nil =>
    simp [lookupCh, setDbfs]
  | cons p l ih =>
    rw [setDbfs_cons, lookupCh_cons, setDbfs_head_fst]
    by_cases hp' : p.1 == k'
    · by_cases hpk : p.1 == k
      · have e : k' = k := by
          rw [← eq_of_beq hp']
          exact eq_of_beq hpk
        rw [if_pos hp', if_pos e, lookupCh_cons, if_pos hpk, if_pos hpk]
        rfl
      · have e : ¬ k' = k := by
          rw [← eq_of_beq hp']
          intro hcontra
          exact hpk (beq_iff_eq.mpr hcontra)
        rw [if_pos hp', if_neg hpk, if_neg e, lookupCh_cons, if_pos hp']
    · rw [if_neg hp', ih]
      by_cases hk : k' = k
      · subst hk
        have hpk : ¬ (p.1 == k') = true := hp'
        rw [if_pos rfl, if_pos rfl, lookupCh_cons, if_neg hpk]
      · rw [if_neg hk, if_neg hk, lookupCh_cons, if_neg hp']

/-- The per-pair gate predicate only reads keys and groups, which a
`current_dbfs` write never changes. -/
lemma gatePred_setDbfs (chs : List (String × ChannelStrip)) (k : String) (db : ℚ)
    (k' : String) (v : ℚ) :
    (match lookupCh (setDbfs chs k db) k' with
     | some ch => ch.group == "speech" && decide (v > -35.0)
     | none => false) =
    (match lookupCh chs k' with
     | some ch => ch.group == "speech" && decide (v > -35.0)
     | none => false) := by
  rw [lookupCh_setDbfs]
  by_cases h : k' = k
  · subst h
    cases lookupCh chs k' <;> simp
  · rw [if_neg h]

/-- `gateSpec` is insensitive to `current_dbfs` writes. -/
lemma gateSpec_setDbfs (chs : List (String × ChannelStrip)) (k : String) (db : ℚ)
    (levels : List (String × ℚ)) :
    gateSpec (setDbfs chs k db) levels = gateSpec chs levels := by
  unfold gateSpec
  congr 1
  funext p
  exact gatePred_setDbfs chs k db p.1 p.2

/-- `speechHit` right after the write coincides with the gate predicate read
from the pre-write table. -/
lemma speechHit_setDbfs (chs : List (String × ChannelStrip)) (k : String) (db : ℚ) :
    speechHit (setDbfs chs k db) k db =
      (match lookupCh chs k with
       | some ch => ch.group == "speech" && decide (db > -35.0)
       | none => false) := by
  unfold speechHit
  exact gatePred_setDbfs chs k db k db

/-- Characterisation of the running `max_speech_db` fold: it ends strictly
above -35.0 dB exactly when it started there or some reported, configured
speech channel reads strictly above -35.0 dB. -/
lemma foldl_gate (levels : List (String × ℚ)) :
    ∀ (chs : List (String × ChannelStrip)) (m : ℚ),
    decide ((levels.foldl telemetryStep (chs, m)).2 > -35.0) =
      (decide (m > -35.0) || gateSpec chs levels) := by
  induction levels with
  | nil =>
    intro chs m
    simp [gateSpec]
  | cons pr rest ih =>
    intro chs m
    rw [List.foldl_cons]
    by_cases hc : containsKey chs pr.1
    case neg =>
      have hcf : containsKey chs pr.1 = false := by
        rwa [Bool.not_eq_true] at hc
      have hstep : telemetryStep (chs, m) pr = (chs, m) := by
        simp [telemetryStep, hcf]
      have hnone : lookupCh chs pr.1 = none := by
        rcases h : lookupCh chs pr.1 with _ | ch
        · rfl
        · rw [containsKey_eq_isSome, h] at hcf
          exact absurd hcf (by simp)
      rw [hstep, ih]
      have hpred : gateSpec chs (pr :: rest) = (false || gateSpec chs rest) := by
        simp [gateSpec, hnone]
      rw [hpred, Bool.false_or]
    case pos =>
      have hstep : telemetryStep (chs, m) pr =
          (setDbfs chs pr.1 pr.2,
           if speechHit (setDbfs chs pr.1 pr.2) pr.1 pr.2 then max m pr.2 else m) := by
        simp [telemetryStep, hc]
      rw [hstep, speechHit_setDbfs]
      have hpred : gateSpec chs (pr :: rest) =
          ((match lookupCh chs pr.1 with
            | some ch => ch.group == "speech" && decide (pr.2 > -35.0)
            | none => false) || gateSpec chs rest) := by
        simp [gateSpec]
      rw [hpred]
      by_cases hs : (match lookupCh chs pr.1 with
          | some ch => ch.group == "speech" && decide (pr.2 > -35.0)
          | none => false) = true
      · rw [if_pos hs, ih, gateSpec_setDbfs, hs]
        have hv : pr.2 > -35.0 := by
          rcases hm : lookupCh chs pr.1 with _ | ch
          · rw [hm] at hs
            exact absurd hs (by simp)
          · rw [hm] at hs
            have := (Bool.and_eq_true _ _).mp hs
            exact of_decide_eq_true this.2
        have hmax : decide (max m pr.2 > -35.0) = (decide (m > -35.0) || decide (pr.2 > -35.0)) := by
          by_cases h1 : (-35.0 : ℚ) < m <;> by_cases h2 : (-35.0 : ℚ) < pr.2 <;>
            simp [h1, h2, lt_max_iff]
        rw [hmax, decide_eq_true hv]
        cases decide (m > -35.0) <;> simp
      · have hs' : (match lookupCh chs pr.1 with
            | some ch => ch.group == "speech" && decide (pr.2 > -35.0)
            | none => false) = false := by
          cases hb : (match lookupCh chs pr.1 with
              | some ch => ch.group == "speech" && decide (pr.2 > -35.0)
              | none => false)
          · rfl
          · exact absurd hb hs
        rw [if_neg hs, ih, gateSpec_setDbfs, hs']
        cases decide (m > -35.0) <;> simp

/-- The gate after a telemetry message is exactly `gateSpec`. -/
lemma process_telemetry_snd (chs : List (String × ChannelStrip))
    (levels : List (String × ℚ)) :
    (process_telemetry chs levels).2 = gateSpec chs levels := by
  show decide ((levels.foldl telemetryStep (chs, -90.0)).2 > -35.0) = gateSpec chs levels
  rw [foldl_gate]
  rw [decide_eq_false (by norm_num : ¬ ((-90.0 : ℚ) > -35.0)), Bool.false_or]

/-- Claim C4: the ducking gate is `gateSpec`: it is active exactly when some
reported, configured channel of group `speech` reads strictly above -35.0 dB.
Hence a reading of exactly -35.0 leaves it inactive, -34.9 activates it, and
with no speech reading at all the running maximum keeps the floor value
-90.0, so the gate is inactive. -/
theorem C4_gate_strict (chs : List (String × ChannelStrip)) (levels : List (String × ℚ)) :
    (process_telemetry chs levels).2 = gateSpec chs levels ∧
    (process_telemetry [(chanOne, speechCh)] [(chanOne, -35.0)]).2 = false ∧
    (process_telemetry [(chanOne, speechCh)] [(chanOne, -34.9)]).2 = true ∧
    (process_telemetry [(chanOne, speechCh)] ([] : List (String × ℚ))).2 = false := by
  refine ⟨process_telemetry_snd chs levels, ?_, ?_, ?_⟩
  · rw [process_telemetry_snd]
    norm_num [gateSpec, lookupCh, speechCh, ChannelStrip.init, grpSpeech]
  · rw [process_telemetry_snd]
    norm_num [gateSpec, lookupCh, speechCh, ChannelStrip.init, grpSpeech]
  · rw [process_telemetry_snd]
    simp [gateSpec]

/-- The telemetry fold never adds or removes keys. -/
lemma containsKey_foldl (levels : List (String × ℚ)) :
    ∀ (chs : List (String × ChannelStrip)) (m : ℚ) (q : String),
    containsKey ((levels.foldl telemetryStep (chs, m)).1) q = containsKey chs q := by
  induction levels with
  | nil =>
    intro chs m q
    rfl
  | cons pr rest ih =>
    intro chs m q
    rw [List.foldl_cons]
    by_cases hc : containsKey chs pr.1
    · have hstep : telemetryStep (chs, m) pr =
          (setDbfs chs pr.1 pr.2,
           if speechHit (setDbfs chs pr.1 pr.2) pr.1 pr.2 then max m pr.2 else m) := by
        simp [telemetryStep, hc]
      rw [hstep, ih, containsKey_setDbfs]
    · have hcf : containsKey chs pr.1 = false := by
        rwa [Bool.not_eq_true] at hc
      have hstep : telemetryStep (chs, m) pr = (chs, m) := by
        simp [telemetryStep, hcf]
      rw [hstep, ih]

/-- Pairs with unknown ids are identity steps: the whole fold equals the fold
over the message restricted to configured ids. -/
lemma foldl_filter_known (levels : List (String × ℚ)) :
    ∀ (chs : List (String × ChannelStrip)) (m : ℚ),
    levels.foldl telemetryStep (chs, m) =
      (levels.filter (fun p => containsKey chs p.1)).foldl telemetryStep (chs, m) := by
  induction levels with
  | nil =>
    intro chs m
    rfl
  | cons pr rest ih =>
    intro chs m
    rw [List.foldl_cons, List.filter_cons]
    by_cases hc : containsKey chs pr.1
    · rw [if_pos hc, List.foldl_cons]
      have hstep : telemetryStep (chs, m) pr =
          (setDbfs chs pr.1 pr.2,
           if speechHit (setDbfs chs pr.1 pr.2) pr.1 pr.2 then max m pr.2 else m) := by
        simp [telemetryStep, hc]
      have hfun : (fun p : String × ℚ => containsKey (setDbfs chs pr.1 pr.2) p.1) =
          (fun p : String × ℚ => containsKey chs p.1) :=
        funext (fun p => containsKey_setDbfs chs pr.1 pr.2 p.1)
      rw [hstep, ih, hfun]
    · have hcf : containsKey chs pr.1 = false := by
        rwa [Bool.not_eq_true] at hc
      have hstep : telemetryStep (chs, m) pr = (chs, m) := by
        simp [telemetryStep, hcf]
      rw [if_neg hc, hstep, ih]

/-- Full description of the table after the telemetry fold: a configured
channel ends with the last level reported for it (its old one when none was),
an unconfigured key stays absent. -/
lemma lookupCh_foldl (levels : List (String × ℚ)) :
    ∀ (chs : List (String × ChannelStrip)) (m : ℚ) (k : String),
    lookupCh ((levels.foldl telemetryStep (chs, m)).1) k =
      (lookupCh chs k).map (fun ch =>
        match lastDb levels k with
        | some d => { ch with current_dbfs := d }
        | none => ch) := by
  induction levels with
  | nil =>
    intro chs m k
    cases h : lookupCh chs k <;> simp [lastDb, h]
  | cons pr rest ih =>
    intro chs m k
    rw [List.foldl_cons]
    by_cases hc : containsKey chs pr.1
    case pos =>
      have hstep : telemetryStep (chs, m) pr =
          (setDbfs chs pr.1 pr.2,
           if speechHit (setDbfs chs pr.1 pr.2) pr.1 pr.2 then max m pr.2 else m) := by
        simp [telemetryStep, hc]
      rw [hstep, ih, lookupCh_setDbfs]
      by_cases hk : k = pr.1
      · rw [if_pos hk]
        subst hk
        have hbk : (pr.1 == pr.1) = true := beq_self_eq_true pr.1
        cases hl : lookupCh chs pr.1 with
        | none => simp
        | some ch =>
          cases hld : lastDb rest pr.1 with
          | some d => simp [lastDb, hld]
          | none => simp [lastDb, hld, hbk]
      · rw [if_neg hk]
        have hbk : (pr.1 == k) = false := by
          rw [beq_eq_false_iff_ne]
          intro h
          exact hk h.symm
        cases hld : lastDb rest k <;>
          cases hl : lookupCh chs k <;>
            simp [lastDb, hld, hbk]
    case neg =>
      have hcf : containsKey chs pr.1 = false := by
        rwa [Bool.not_eq_true] at hc
      have hstep : telemetryStep (chs, m) pr = (chs, m) := by
        simp [telemetryStep, hcf]
      rw [hstep, ih]
      by_cases hbk : pr.1 == k
      · have hkk : pr.1 = k := eq_of_beq hbk
        have hnone : lookupCh chs k = none := by
          rw [← hkk]
          rcases h : lookupCh chs pr.1 with _ | c
          · rfl
          · rw [containsKey_eq_isSome, h] at hcf
            exact absurd hcf (by simp)
        rw [hnone]
        simp
      · have hbf : (pr.1 == k) = false := by
          cases hb2 : pr.1 == k
          · rfl
          · exact absurd hb2 hbk
        cases hld : lastDb rest k <;>
          cases hl : lookupCh chs k <;>
            simp [lastDb, hld, hbf]

/-- Claim C9: processing telemetry is total and unknown channel ids are pure
no-ops — the telemetry pass and the whole decision cycle equal the ones on
the message restricted to configured ids, so unknown ids change neither the
updated table, the gate, nor any emitted command; and every configured
channel's `current_dbfs` ends at the last level reported for it (its previous
value when the message omits it). -/
theorem C9_unknown_ids_ignored (now : ℚ) (chs : List (String × ChannelStrip))
    (levels : List (String × ℚ)) (k : String) :
    process_telemetry chs levels =
      process_telemetry chs (levels.filter (fun p => containsKey chs p.1)) ∧
    decisionCycle now chs levels =
      decisionCycle now chs (levels.filter (fun p => containsKey chs p.1)) ∧
    lookupCh (process_telemetry chs levels).1 k =
      (lookupCh chs k).map (fun ch =>
        match lastDb levels k with
        | some d => { ch with current_dbfs := d }
        | none => ch) := by
  have h1 : process_telemetry chs levels =
      process_telemetry chs (levels.filter (fun p => containsKey chs p.1)) := by
    unfold process_telemetry
    rw [foldl_filter_known]
  refine ⟨h1, ?_, ?_⟩
  · unfold decisionCycle
    rw [h1]
  · show lookupCh ((levels.foldl telemetryStep (chs, -90.0)).1) k = _
    rw [lookupCh_foldl]

end X32
